import Mathlib

/-!
Verification development for the vtable-database generator
(Tools/dumper7_ue_vtable_db_generator.py).

The Python source is shallowly embedded: header text is a list of lines
(each a list of characters, newline removed), the file system is a partial
map from paths to line lists, machine integers are Nat/Int, and the
memoized recursive resolver is modelled as a fuel-indexed pure function
(the Python memo table only caches a pure function of the class map, so
any fuel exceeding the ancestor-chain length yields the Python value;
cyclic parent chains, on which the Python recursion does not terminate,
correspond to no stabilizing fuel).

The Python regular expressions used by the source are small and are
compiled here into explicit character-list matchers with the same
backtracking/preference semantics (greedy and lazy quantifier lengths are
enumerated in regex preference order).  Word characters follow the ASCII
fragment of re's \w, which is exact on C++ header text.
-/

namespace VTableGen

/-- ASCII whitespace as matched by Python str.strip / str.split / re \s. -/
def pyIsSpace (c : Char) : Bool :=
  c == ' ' || c == '\t' || c == '\n' || c == '\r' ||
  c == Char.ofNat 11 || c == Char.ofNat 12

/-- Word characters of re's \w (ASCII fragment): letters, digits, underscore. -/
def isWordChar (c : Char) : Bool :=
  c.isAlphanum || c == '_'

/-- Python str.lstrip for character-sets: drop leading chars satisfying f. -/
def pyLstrip (f : Char → Bool) (s : List Char) : List Char :=
  s.dropWhile f

/-- Python str.strip(): remove leading and trailing whitespace. -/
def pyStrip (s : List Char) : List Char :=
  (((s.dropWhile pyIsSpace).reverse).dropWhile pyIsSpace).reverse

/-- If p is a literal prefix of s, return the remainder of s. -/
def dropLit : List Char → List Char → Option (List Char)
  | [], s => some s
  | _ :: _, [] => none
  | p :: ps, c :: cs => if p = c then dropLit ps cs else none

/-- Python str.startswith for a literal. -/
def pyStartsWith (p s : List Char) : Bool :=
  (dropLit p s).isSome

/-- Word w matched at the head of s with a trailing \b word boundary
(the boundary character is not consumed); returns the remainder. -/
def wordHere (w s : List Char) : Option (List Char) :=
  match dropLit w s with
  | none => none
  | some rest =>
    match rest with
    | [] => some []
    | c :: _ => if isWordChar c then none else some rest

/-- A \b boundary holds before the current position given the previous char. -/
def boundaryBefore : Option Char → Bool
  | none => true
  | some c => !isWordChar c

/-- Helper for re.search of a word with boundaries on both sides:
scan every position, tracking the previous character. -/
def containsWordGo (w : List Char) : Option Char → List Char → Bool
  | prev, [] => boundaryBefore prev && (wordHere w []).isSome
  | prev, c :: rest =>
    (boundaryBefore prev && (wordHere w (c :: rest)).isSome) ||
    containsWordGo w (some c) rest

/-- re.search of a whole word with \b boundaries (models _RE_VIRTUAL and
_RE_OVERRIDE, i.e. patterns of the form \bword\b). -/
def containsWord (w s : List Char) : Bool :=
  containsWordGo w none s

/-- Length of the maximal prefix of s whose characters satisfy f. -/
def charRun (f : Char → Bool) : List Char → Nat
  | [] => 0
  | c :: rest => if f c then charRun f rest + 1 else 0

/-- Try candidate quantifier lengths in the given preference order,
returning the first success (regex backtracking over one quantifier). -/
def firstSome {α : Type} : List Nat → (Nat → Option α) → Option α
  | [], _ => none
  | n :: rest, k =>
    match k n with
    | some r => some r
    | none => firstSome rest k

/-- Candidate lengths n, n-1, ..., 1 (greedy one-or-more quantifier). -/
def descCounts (n : Nat) : List Nat :=
  ((List.range n).map (fun i => i + 1)).reverse

/-- Candidate lengths 1, 2, ..., n (lazy one-or-more quantifier). -/
def ascCounts (n : Nat) : List Nat :=
  (List.range n).map (fun i => i + 1)

/-- Candidate lengths n, n-1, ..., 0 (greedy zero-or-more quantifier). -/
def descCounts0 (n : Nat) : List Nat :=
  (List.range (n + 1)).reverse

/-- Greedy + over a character class, continuing with the rest of the input. -/
def plusGreedy {α : Type} (f : Char → Bool) (s : List Char)
    (k : List Char → Option α) : Option α :=
  firstSome (descCounts (charRun f s)) (fun n => k (s.drop n))

/-- Lazy +? over a character class, continuing with the rest of the input. -/
def plusLazy {α : Type} (f : Char → Bool) (s : List Char)
    (k : List Char → Option α) : Option α :=
  firstSome (ascCounts (charRun f s)) (fun n => k (s.drop n))

/-- Does s continue with \s*\( (greedy star then a literal paren)? -/
def starThenParen (s : List Char) : Bool :=
  (descCounts0 (charRun pyIsSpace s)).any (fun m =>
    match s.drop m with
    | c :: _ => c = '('
    | [] => false)

/-- Captured (\w+) group: greedy lengths, keep the capture whose
continuation test succeeds. -/
def wordCapture (s : List Char) (k : List Char → Bool) : Option (List Char) :=
  firstSome (descCounts (charRun isWordChar s)) (fun n =>
    if k (s.drop n) then some (s.take n) else none)

/-- Greedy \s* then a captured (\w+) group with continuation test. -/
def starThenWordCapture (s : List Char) (k : List Char → Bool) :
    Option (List Char) :=
  firstSome (descCounts0 (charRun pyIsSpace s)) (fun m =>
    wordCapture (s.drop m) k)

/-- Tail of _RE_DESTRUCTOR after the literal "virtual":
\s+~\s*(\w+)\s*\( ; returns the captured class name. -/
def reDtorTail (s : List Char) : Option (List Char) :=
  plusGreedy pyIsSpace s (fun s1 =>
    match s1 with
    | c :: s2 =>
      if c = '~' then starThenWordCapture s2 starThenParen else none
    | [] => none)

/-- re.search of _RE_DESTRUCTOR = virtual\s+~\s*(\w+)\s*\( over all start
positions, leftmost first; returns group(1). -/
def reDtorSearch : List Char → Option (List Char)
  | [] => none
  | c :: rest =>
    match dropLit ['v','i','r','t','u','a','l'] (c :: rest) with
    | some tl =>
      match reDtorTail tl with
      | some r => some r
      | none => reDtorSearch rest
    | none => reDtorSearch rest

/-- Character class [\w:*&<>,\s] of _RE_FUNC_NAME's middle group. -/
def isMiddleChar (c : Char) : Bool :=
  isWordChar c || c == ':' || c == '*' || c == '&' || c == '<' ||
  c == '>' || c == ',' || pyIsSpace c

/-- Tail of _RE_FUNC_NAME after the literal "virtual":
\s+(?:[\w:*&<>,\s]+?)\s+(\w+)\s*\( ; returns the captured name. -/
def reFuncTail (s : List Char) : Option (List Char) :=
  plusGreedy pyIsSpace s (fun s1 =>
    plusLazy isMiddleChar s1 (fun s2 =>
      plusGreedy pyIsSpace s2 (fun s3 =>
        wordCapture s3 starThenParen)))

/-- re.search of _RE_FUNC_NAME = virtual\s+(?:[\w:*&<>,\s]+?)\s+(\w+)\s*\(
over all start positions, leftmost first; returns group(1). -/
def reFuncSearch : List Char → Option (List Char)
  | [] => none
  | c :: rest =>
    match dropLit ['v','i','r','t','u','a','l'] (c :: rest) with
    | some tl =>
      match reFuncTail tl with
      | some r => some r
      | none => reFuncSearch rest
    | none => reFuncSearch rest

/-- decl.split("(")[0]: the characters before the first parenthesis. -/
def takeUntilParen : List Char → List Char
  | [] => []
  | c :: rest => if c = '(' then [] else c :: takeUntilParen rest

/-- Python str.split() with no arguments: split on whitespace runs,
producing no empty fields. -/
def pySplitWs (s : List Char) : List (List Char) :=
  let st := s.foldr
    (fun c (acc : List (List Char) × List Char) =>
      if pyIsSpace c then
        (if acc.2.isEmpty then acc else (acc.2 :: acc.1, []))
      else (acc.1, c :: acc.2))
    ([], [])
  if st.2.isEmpty then st.1 else st.2 :: st.1

/-- A virtual-function slot record (dataclass VirtualFunction). -/
structure VirtualFunction where
  name : String
  is_destructor : Bool
  line_number : Nat
deriving DecidableEq, Repr

/-- A per-class registry entry (dataclass ClassVTable).  The mutable
base_index field (default 0, written exactly once by the resolver) is
represented by the function base_index_of below rather than stored. -/
structure ClassVTable where
  class_name : String
  parent_name : Option String
  own_functions : List VirtualFunction
deriving DecidableEq, Repr

/-- _extract_func_name: name and destructor flag of a virtual declaration.
none models a raised exception (the fallback's parts[-1] indexing);
extract_func_name_total proves it never occurs. -/
def fallbackGo (allparts : List (List Char)) :
    Nat → List (List Char) → Option (List Char × Bool)
  | _, [] => some ("unknown".data, false)
  | i, p :: rest =>
    if p = "virtual".data ∧ i + 1 < allparts.length then
      match allparts.getLast? with
      | none => none
      | some lastPart =>
        let nm := pyLstrip (fun c => c == '*' || c == '&') lastPart
        if nm.isEmpty then fallbackGo allparts (i + 1) rest
        else some (nm, pyStartsWith ['~'] nm)
    else fallbackGo allparts (i + 1) rest

/-- _extract_func_name(decl): destructor regex, then function-name regex,
then the token fallback scanning decl.split("(")[0].split(). -/
def extract_func_name (decl : List Char) : Option (List Char × Bool) :=
  match reDtorSearch decl with
  | some nm => some ('~' :: nm, true)
  | none =>
    match reFuncSearch decl with
    | some nm => some (nm, false)
    | none =>
      let parts := pySplitWs (takeUntilParen decl)
      fallbackGo parts 0 parts

/-- _process_declaration: append a slot for a completed declaration unless
it lacks the virtual keyword or carries the override qualifier.
The getD default is unreachable by extract_func_name_total. -/
def process_declaration (decl : List Char) (lineNo : Nat)
    (results : List VirtualFunction) : List VirtualFunction :=
  if containsWord "virtual".data decl = false then results
  else if containsWord "override".data decl = true then results
  else
    let r := (extract_func_name decl).getD ("unknown".data, false)
    results ++ [⟨String.mk r.1, r.2, lineNo⟩]

/-- The fixed editor-only guard macros (EDITOR_MACROS). -/
def editorMacroNames : List (List Char) :=
  ["WITH_EDITOR".data, "WITH_EDITORONLY_DATA".data,
   "WITH_EDITOR_ONLY_DATA".data]

/-- First alternative of _is_editor_ifdef's first pattern:
defined\s*\(\s*MACRO\s*\) at the head of s. -/
def definedAlt (macro_ s : List Char) : Bool :=
  match dropLit "defined".data s with
  | none => false
  | some r1 =>
    match r1.dropWhile pyIsSpace with
    | c :: r2 =>
      c = '(' &&
      (match dropLit macro_ (r2.dropWhile pyIsSpace) with
       | none => false
       | some r3 =>
         match r3.dropWhile pyIsSpace with
         | d :: _ => d = ')'
         | [] => false)
    | [] => false

/-- re.match of #\s*if\s+(defined\s*\(\s*MACRO\s*\)|MACRO\b). -/
def editorIfPattern (macro_ s : List Char) : Bool :=
  match s with
  | c :: rest =>
    c = '#' &&
    (match dropLit "if".data (rest.dropWhile pyIsSpace) with
     | none => false
     | some r2 =>
       match r2 with
       | d :: _ =>
         pyIsSpace d &&
         (let r3 := r2.dropWhile pyIsSpace
          definedAlt macro_ r3 || (wordHere macro_ r3).isSome)
       | [] => false)
  | [] => false

/-- re.match of #\s*ifdef\s+MACRO\b. -/
def editorIfdefPattern (macro_ s : List Char) : Bool :=
  match s with
  | c :: rest =>
    c = '#' &&
    (match dropLit "ifdef".data (rest.dropWhile pyIsSpace) with
     | none => false
     | some r2 =>
       match r2 with
       | d :: _ =>
         pyIsSpace d && (wordHere macro_ (r2.dropWhile pyIsSpace)).isSome
       | [] => false)
  | [] => false

/-- _is_editor_ifdef: does a preprocessor line open an editor-only block? -/
def is_editor_ifdef (line : List Char) : Bool :=
  editorMacroNames.any (fun m =>
    editorIfPattern m (pyStrip line) || editorIfdefPattern m (pyStrip line))

/-- re.match of #\s*KEYWORD against a stripped directive line. -/
def hashDirective (kw : List Char) (line : List Char) : Bool :=
  match line with
  | c :: rest => c = '#' && pyStartsWith kw (rest.dropWhile pyIsSpace)
  | [] => false

/-- The class-declaration pattern \bclass\b[^;]*?\bNAME\b: after the class
keyword, scan for NAME at a \b boundary with no semicolon in between. -/
def classTailSearch (name : List Char) : Char → List Char → Bool
  | prev, [] => !isWordChar prev && (wordHere name []).isSome
  | prev, c :: rest =>
    (!isWordChar prev && (wordHere name (c :: rest)).isSome) ||
    (c ≠ ';' && classTailSearch name c rest)

/-- re.search of class_pattern = \bclass\b[^;]*?\bNAME\b on a raw line. -/
def classDeclGo (name : List Char) : Option Char → List Char → Bool
  | _, [] => false
  | prev, c :: rest =>
    (boundaryBefore prev &&
      (match wordHere "class".data (c :: rest) with
       | some tl => classTailSearch name 's' tl
       | none => false)) ||
    classDeclGo name (some c) rest

/-- class_pattern.search(raw_line). -/
def classDeclSearch (name raw : List Char) : Bool :=
  classDeclGo name none raw

/-- The scanner's per-line state in parse_header's loop. -/
structure ScanState where
  results : List VirtualFunction
  editor_depth : Nat
  pp_stack : List Bool
  in_class : Bool
  brace_depth : Int
  class_brace_depth : Int
  accum : List Char
  accum_start : Nat
deriving DecidableEq, Repr

/-- The scanner's initial state. -/
def initScan : ScanState :=
  { results := [], editor_depth := 0, pp_stack := [], in_class := false,
    brace_depth := 0, class_brace_depth := 0, accum := [], accum_start := 0 }

/-- Python pp_depth_stack[-1] = b on a nonempty stack (top = last). -/
def setLastFlag (l : List Bool) (b : Bool) : List Bool :=
  l.dropLast ++ [b]

/-- Preprocessor-directive handling of parse_header (lines 209-228):
the #if / #elif / #else / #endif branches over the stripped line.
Python's `if pp_depth_stack and pp_depth_stack[-1] and editor_depth > 0`
is the single conjunction getLast? = some true ∧ 0 < editor_depth, and
`was_editor = pp_depth_stack.pop()` is the last element with the stack
shortened by dropLast. -/
def stepDirective (s : ScanState) (line : List Char) : ScanState :=
  if hashDirective "if".data line then
    { s with pp_stack := s.pp_stack ++ [is_editor_ifdef line],
             editor_depth :=
               if is_editor_ifdef line then s.editor_depth + 1
               else s.editor_depth }
  else if hashDirective "elif".data line then s
  else if hashDirective "else".data line then
    if s.pp_stack.getLast? = some true ∧ 0 < s.editor_depth then
      { s with editor_depth := s.editor_depth - 1,
               pp_stack := setLastFlag s.pp_stack false }
    else s
  else if hashDirective "endif".data line then
    if s.pp_stack = [] then s
    else
      { s with pp_stack := s.pp_stack.dropLast,
               editor_depth :=
                 if s.pp_stack.getLast? = some true ∧ 0 < s.editor_depth then
                   s.editor_depth - 1
                 else s.editor_depth }
  else s

/-- Class-scope tracking and declaration accumulation of parse_header
(lines 234-272), reached only outside guards on non-directive lines. -/
def stepBody (className : List Char) (s : ScanState) (lineNo : Nat)
    (raw line : List Char) : ScanState :=
  if s.in_class = false then
    if classDeclSearch className raw then
      let bd : Int := (raw.count '{' : Int) - (raw.count '}' : Int)
      if bd ≤ 0 then
        { s with in_class := true, brace_depth := 0, class_brace_depth := 0 }
      else
        { s with in_class := true, brace_depth := bd, class_brace_depth := 1 }
    else s
  else
    let opens := raw.count '{'
    let closes := raw.count '}'
    let bd : Int := s.brace_depth + (opens : Int) - (closes : Int)
    let cbd : Int :=
      if s.class_brace_depth = 0 ∧ 0 < opens then bd else s.class_brace_depth
    if bd ≤ 0 ∧ 0 < cbd then
      { s with brace_depth := bd, class_brace_depth := cbd, in_class := false }
    else if s.accum.isEmpty = false ∨ containsWord "virtual".data line then
      let start := if s.accum.isEmpty then lineNo else s.accum_start
      let acc := s.accum ++ (' ' :: line)
      if acc.contains ';' ∨ acc.contains '{' then
        { s with brace_depth := bd, class_brace_depth := cbd,
                 results := process_declaration acc start s.results,
                 accum := [], accum_start := start }
      else
        { s with brace_depth := bd, class_brace_depth := cbd,
                 accum := acc, accum_start := start }
    else
      { s with brace_depth := bd, class_brace_depth := cbd }

/-- One iteration of parse_header's line loop. -/
def stepLine (className : List Char) (s : ScanState) (lineNo : Nat)
    (raw : List Char) : ScanState :=
  if pyStartsWith ['#'] (pyStrip raw) then stepDirective s (pyStrip raw)
  else if 0 < s.editor_depth then s
  else stepBody className s lineNo raw (pyStrip raw)

/-- parse_header's loop over enumerate(lines, start=1). -/
def scanLines (className : List Char) : ScanState → Nat → List (List Char) →
    ScanState
  | s, _, [] => s
  | s, n, l :: rest => scanLines className (stepLine className s n l) (n + 1) rest

/-- parse_header on in-memory header text. -/
def parseHeaderText (className : List Char) (lines : List (List Char)) :
    List VirtualFunction :=
  (scanLines className initScan 1 lines).results

/-- parse_header including the missing-file path: the file system is a
partial map from paths to header lines; the WARNING printed to stderr is
returned as a diagnostic. -/
def parse_header (fs : String → Option (List String))
    (filepath className : String) : List VirtualFunction × List String :=
  match fs filepath with
  | none => ([], [String.append "  WARNING: File not found: " filepath])
  | some lines => (parseHeaderText className.data (lines.map String.data), [])

/-- Python dict lookup on the insertion-ordered association list. -/
def mapLookup {α : Type} : List (String × α) → String → Option α
  | [], _ => none
  | (k, v) :: rest, key => if k = key then some v else mapLookup rest key

/-- Python dict assignment d[k] = v: overwrite in place, else append. -/
def dictInsert {α : Type} : List (String × α) → String → α → List (String × α)
  | [], k, v => [(k, v)]
  | (k', v') :: rest, k, v =>
    if k' = k then (k, v) :: rest else (k', v') :: dictInsert rest k v

/-- A configuration triple (class_name, parent_class_name, header path). -/
abbrev ConfigEntry := String × Option String × String

/-- One iteration of build_vtable_db's registry loop (lines 286-299):
scan the configured header, store a ClassVTable under the class name,
and keep any missing-file diagnostic. -/
def buildStep (fs : String → Option (List String))
    (acc : List (String × ClassVTable) × List String) (t : ConfigEntry) :
    List (String × ClassVTable) × List String :=
  (dictInsert acc.1 t.1 ⟨t.1, t.2.1, (parse_header fs t.2.2 t.1).1⟩,
   acc.2 ++ (parse_header fs t.2.2 t.1).2)

/-- The registry-construction loop of build_vtable_db over the whole
configuration. -/
def buildClassMap (fs : String → Option (List String))
    (config : List ConfigEntry) : List (String × ClassVTable) × List String :=
  config.foldl (buildStep fs) ([], [])

/-- Slot counting of resolve (lines 327-332): destructors occupy 2 slots. -/
def own_slots (fns : List VirtualFunction) : Nat :=
  fns.foldl (fun acc f => acc + if f.is_destructor then 2 else 1) 0

/-- The memoized recursive resolve of _assign_base_indices as a pure
fuel-indexed function: resolve(name) is the class's total slot count.
Classes absent from the map contribute 0; the Python truthiness test
`if vtable.parent_name` also treats an empty parent string as no parent.
Fuel exhaustion returns 0; any fuel exceeding the ancestor-chain length
yields the Python value. -/
def resolveTotal (m : List (String × ClassVTable)) : Nat → String → Nat
  | 0, _ => 0
  | fuel + 1, name =>
    match mapLookup m name with
    | none => 0
    | some c =>
      (match c.parent_name with
       | none => 0
       | some p => if p = "" then 0 else resolveTotal m fuel p) + own_slots c.own_functions

/-- parent_total for one registry entry (resolve lines 320-322). -/
def parentTotal (m : List (String × ClassVTable)) (fuel : Nat)
    (c : ClassVTable) : Nat :=
  match c.parent_name with
  | none => 0
  | some p => if p = "" then 0 else resolveTotal m fuel p

/-- vtable.base_index after _assign_base_indices ran: resolve writes
base_index := parent_total exactly once per mapped class. -/
def base_index_of (m : List (String × ClassVTable)) (fuel : Nat)
    (name : String) : Nat :=
  match mapLookup m name with
  | none => 0
  | some c => parentTotal m fuel c

/-- The emitted functions list of _format_output's loop (lines 348-355):
walk own_functions from the base index, destructors advancing by 2. -/
def emitFunctions : Nat → List VirtualFunction → List (Nat × String × Bool)
  | _, [] => []
  | idx, f :: rest =>
    (idx, f.name, f.is_destructor) ::
      emitFunctions (idx + if f.is_destructor then 2 else 1) rest

/-- The final idx value of the same loop, emitted as total_slots. -/
def emitEnd : Nat → List VirtualFunction → Nat
  | idx, [] => idx
  | idx, f :: rest => emitEnd (idx + if f.is_destructor then 2 else 1) rest

/-- One per-class record of the output JSON (classes[name]). -/
structure EmittedClass where
  parent : Option String
  base_index : Nat
  own_count : Nat
  total_slots : Nat
  functions : List (Nat × String × Bool)
deriving DecidableEq, Repr

/-- _format_output's body for one class. -/
def formatClass (m : List (String × ClassVTable)) (fuel : Nat)
    (c : ClassVTable) : EmittedClass :=
  let b := parentTotal m fuel c
  { parent := c.parent_name, base_index := b,
    own_count := c.own_functions.length,
    total_slots := emitEnd b c.own_functions,
    functions := emitFunctions b c.own_functions }

/-- The top-level output artifact of _format_output. -/
structure VtableDb where
  ue_version : String
  generator : String
  classes : List (String × EmittedClass)
deriving DecidableEq, Repr

/-- _format_output over the whole class map. -/
def format_output (m : List (String × ClassVTable)) (fuel : Nat)
    (version : String) : VtableDb :=
  { ue_version := version, generator := "ue_vtable_db_generator.py",
    classes := m.map (fun e => (e.1, formatClass m fuel e.2)) }

/-- build_vtable_db: registry construction, resolution, emission; also
returns the collected diagnostics. -/
def build_vtable_db (fs : String → Option (List String))
    (config : List ConfigEntry) (fuel : Nat) (version : String) :
    VtableDb × List String :=
  let r := buildClassMap fs config
  (format_output r.1 fuel version, r.2)

/-- The emitted total_slots for a named class (0 when unmapped). -/
def total_slots_of (m : List (String × ClassVTable)) (fuel : Nat)
    (name : String) : Nat :=
  match mapLookup m name with
  | none => 0
  | some c => (formatClass m fuel c).total_slots

/-- The emitted functions table for a named class ([] when unmapped). -/
def functions_of (m : List (String × ClassVTable)) (fuel : Nat)
    (name : String) : List (Nat × String × Bool) :=
  match mapLookup m name with
  | none => []
  | some c => (formatClass m fuel c).functions

/-! ### Concrete fixtures -/

/-- Root of the three-class scenario: funcA and funcB, no destructor. -/
def rootVT : ClassVTable :=
  ⟨"Root", none, [⟨"funcA", false, 3⟩, ⟨"funcB", false, 4⟩]⟩

/-- Mid's own functions, produced by the classifier from its completed
declarations: funcC, an override of funcA (contributing nothing), and the
destructor ~Mid. -/
def midOwn : List VirtualFunction :=
  process_declaration "virtual ~Mid();".data 12
    (process_declaration "virtual void funcA() override;".data 11
      (process_declaration "virtual void funcC();".data 10 []))

/-- Mid : Root with own functions funcC and ~Mid. -/
def midVT : ClassVTable := ⟨"Mid", some "Root", midOwn⟩

/-- Leaf : Mid with no own functions. -/
def leafVT : ClassVTable := ⟨"Leaf", some "Mid", []⟩

/-- The three-class registry Root → Mid → Leaf. -/
def scenarioMap : List (String × ClassVTable) :=
  [("Root", rootVT), ("Mid", midVT), ("Leaf", leafVT)]

/-! ### Helper lemmas -/

/-- Shifting the accumulator out of the slot-counting foldl. -/
theorem own_slots_foldl_shift (fns : List VirtualFunction) (a : Nat) :
    fns.foldl (fun acc f => acc + if f.is_destructor then 2 else 1) a
      = a + own_slots fns := by
  induction fns generalizing a with
  | nil => simp [own_slots]
  | cons f rest ih =>
    simp only [own_slots, List.foldl_cons] at *
    rw [ih, ih (0 + if f.is_destructor then 2 else 1)]
    omega

/-- The final index of the emitter walk is the base plus the summed width. -/
theorem emitEnd_eq (b : Nat) (fns : List VirtualFunction) :
    emitEnd b fns = b + own_slots fns := by
  induction fns generalizing b with
  | nil => simp [emitEnd, own_slots]
  | cons f rest ih =>
    have h1 : own_slots (f :: rest)
        = (if f.is_destructor then 2 else 1) + own_slots rest := by
      have h0 : own_slots (f :: rest)
          = rest.foldl (fun acc g => acc + if g.is_destructor then 2 else 1)
              (0 + if f.is_destructor then 2 else 1) := rfl
      rw [h0, own_slots_foldl_shift]
      omega
    calc emitEnd b (f :: rest)
        = emitEnd (b + if f.is_destructor then 2 else 1) rest := rfl
      _ = (b + if f.is_destructor then 2 else 1) + own_slots rest := ih _
      _ = b + own_slots (f :: rest) := by rw [h1]; omega

/-- Unfolding resolve at positive fuel in terms of parent_total. -/
theorem resolveTotal_succ (m : List (String × ClassVTable)) (fuel : Nat)
    (name : String) :
    resolveTotal m (fuel + 1) name
      = match mapLookup m name with
        | none => 0
        | some c => parentTotal m fuel c + own_slots c.own_functions := by
  simp only [resolveTotal, parentTotal]

/-! ### Claims -/

/-- C1: for classes C and P both present in the class map, with P the
configured parent of C, once resolution of P's chain has stabilized
(resolution terminating within the given fuel), the resolver makes
base_index(C) = base_index(P) + own width of P, and the emitted
total_slots(C) = total_slots(P) + own width of C. -/
theorem parent_chain_indices (m : List (String × ClassVTable)) (fuel : Nat)
    (C P : String) (cC cP : ClassVTable)
    (hC : mapLookup m C = some cC) (hCP : cC.parent_name = some P)
    (hPne : ¬ P = "") (hP : mapLookup m P = some cP)
    (hstab : resolveTotal m fuel P = resolveTotal m (fuel + 1) P) :
    base_index_of m fuel C = base_index_of m fuel P + own_slots cP.own_functions ∧
    total_slots_of m fuel C = total_slots_of m fuel P + own_slots cC.own_functions := by
  have hbC : base_index_of m fuel C = resolveTotal m fuel P := by
    simp [base_index_of, hC, parentTotal, hCP, hPne]
  have hbP : base_index_of m fuel P = parentTotal m fuel cP := by
    simp [base_index_of, hP]
  have hres : resolveTotal m (fuel + 1) P
      = parentTotal m fuel cP + own_slots cP.own_functions := by
    rw [resolveTotal_succ, hP]
  have htC : total_slots_of m fuel C
      = resolveTotal m fuel P + own_slots cC.own_functions := by
    simp [total_slots_of, hC, formatClass, emitEnd_eq, parentTotal, hCP, hPne]
  have htP : total_slots_of m fuel P
      = parentTotal m fuel cP + own_slots cP.own_functions := by
    simp [total_slots_of, hP, formatClass, emitEnd_eq]
  constructor
  · rw [hbC, hbP, hstab, hres]
  · rw [htC, htP, hstab, hres]

/-- Witness for C1 on the concrete three-class registry, at C = Mid and
P = Root. -/
theorem parent_chain_indices_witness :
    base_index_of scenarioMap 1 "Mid"
      = base_index_of scenarioMap 1 "Root" + own_slots rootVT.own_functions ∧
    total_slots_of scenarioMap 1 "Mid"
      = total_slots_of scenarioMap 1 "Root" + own_slots midVT.own_functions :=
  parent_chain_indices scenarioMap 1 "Mid" "Root" midVT rootVT
    (by decide) (by decide) (by decide) (by decide) (by decide)

/-- C2: on the three-class registry Root (funcA, funcB) → Mid (funcC,
an override of funcA contributing nothing, destructor ~Mid) → Leaf (no
own functions), the resolver and emitter produce Root.base_index = 0 with
total_slots = 2; Mid.base_index = 2 with functions
[(2, funcC, false), (3, ~Mid, true)] and total_slots = 5; and
Leaf.base_index = 5 with total_slots = 5. -/
theorem scenario_three_classes :
    base_index_of scenarioMap 4 "Root" = 0 ∧
    total_slots_of scenarioMap 4 "Root" = 2 ∧
    base_index_of scenarioMap 4 "Mid" = 2 ∧
    functions_of scenarioMap 4 "Mid" = [(2, "funcC", false), (3, "~Mid", true)] ∧
    total_slots_of scenarioMap 4 "Mid" = 5 ∧
    base_index_of scenarioMap 4 "Leaf" = 5 ∧
    total_slots_of scenarioMap 4 "Leaf" = 5 := by
  decide

/-- C4: in every emitted function table, consecutive slot indices differ
by exactly 2 after a destructor slot and by exactly 1 after any other
slot; the widths are the constants 2 and 1, independent of input data. -/
theorem slot_widths (base : Nat) (fns : List VirtualFunction) (i : Nat)
    (h : i + 1 < (emitFunctions base fns).length) :
    ((emitFunctions base fns).get ⟨i + 1, h⟩).1
      = ((emitFunctions base fns).get ⟨i, Nat.lt_of_succ_lt h⟩).1
        + (if ((emitFunctions base fns).get ⟨i, Nat.lt_of_succ_lt h⟩).2.2
           then 2 else 1) := by
  induction fns generalizing base i with
  | nil => simp [emitFunctions] at h
  | cons f rest ih =>
    match i with
    | 0 =>
      have hr : rest ≠ [] := by
        intro he
        rw [he] at h
        simp [emitFunctions] at h
      match rest, hr with
      | g :: gs, _ =>
        simp [emitFunctions, List.get]
    | i + 1 =>
      have h' : i + 1 < (emitFunctions (base + if f.is_destructor then 2 else 1) rest).length := by
        have hl : (emitFunctions base (f :: rest)).length
            = (emitFunctions (base + if f.is_destructor then 2 else 1) rest).length + 1 := by
          simp [emitFunctions]
        omega
      have := ih (base + if f.is_destructor then 2 else 1) i h'
      simpa [emitFunctions, List.get] using this

/-- Witness for C4 on Mid's emitted table extended by one slot after the
destructor: the destructor at index 3 is followed by index 5. -/
theorem slot_widths_witness :
    ((emitFunctions 2 (midOwn ++ [⟨"funcD", false, 13⟩])).get ⟨2, by decide⟩).1
      = ((emitFunctions 2 (midOwn ++ [⟨"funcD", false, 13⟩])).get ⟨1, by decide⟩).1
        + (if ((emitFunctions 2 (midOwn ++ [⟨"funcD", false, 13⟩])).get ⟨1, by decide⟩).2.2
           then 2 else 1) :=
  slot_widths 2 (midOwn ++ [⟨"funcD", false, 13⟩]) 1 (by decide)

/-- C5: a completed declaration carrying the override qualifier produces
no slot record: the classifier returns the results list unchanged, so
own_functions never contains an override declaration and such a
declaration never increases any class's total_slots. -/
theorem override_produces_nothing (decl : List Char) (lineNo : Nat)
    (results : List VirtualFunction)
    (hov : containsWord "override".data decl = true) :
    process_declaration decl lineNo results = results := by
  unfold process_declaration
  rw [hov]
  by_cases hv : containsWord "virtual".data decl = false <;> simp [hv]

/-- Witness for C5 on the concrete override declaration of the scenario. -/
theorem override_produces_nothing_witness :
    process_declaration "virtual void funcA() override;".data 11 [] = [] :=
  override_produces_nothing "virtual void funcA() override;".data 11 []
    (by decide)

/-- Dict lookup is invariant under permutation of the entry list when the
keys are distinct (as they are in a Python dict). -/
theorem mapLookup_eq_of_perm {α : Type} (m₁ m₂ : List (String × α))
    (h : m₁.Perm m₂) :
    (m₁.map Prod.fst).Nodup → ∀ k, mapLookup m₁ k = mapLookup m₂ k := by
  induction h with
  | nil => intro _ _; rfl
  | cons x h ih =>
    intro hnd k
    rw [List.map_cons] at hnd
    have hnd' := (List.nodup_cons.mp hnd).2
    simp only [mapLookup]
    split
    · rfl
    · exact ih hnd' k
  | swap x y l =>
    intro hnd k
    rw [List.map_cons, List.map_cons] at hnd
    have hxy : y.1 ≠ x.1 := by
      have h1 := (List.nodup_cons.mp hnd).1
      intro he
      exact h1 (by simp [he])
    by_cases h1 : y.1 = k <;> by_cases h2 : x.1 = k
    · exact absurd (h1.trans h2.symm) hxy
    · simp [mapLookup, h1, h2]
    · simp [mapLookup, h1, h2]
    · simp [mapLookup, h1, h2]
  | trans h₁ h₂ ih₁ ih₂ =>
    intro hnd k
    rw [ih₁ hnd k, ih₂ ((h₁.map Prod.fst).nodup hnd) k]

/-- resolve depends on the class map only through dict lookup. -/
theorem resolveTotal_congr (m₁ m₂ : List (String × ClassVTable))
    (hl : ∀ k, mapLookup m₁ k = mapLookup m₂ k) :
    ∀ fuel name, resolveTotal m₁ fuel name = resolveTotal m₂ fuel name := by
  intro fuel
  induction fuel with
  | zero => intro _; rfl
  | succ f ih =>
    intro name
    rw [resolveTotal_succ, resolveTotal_succ, hl name]
    cases mapLookup m₂ name with
    | none => rfl
    | some c =>
      show parentTotal m₁ f c + own_slots c.own_functions
        = parentTotal m₂ f c + own_slots c.own_functions
      congr 1
      unfold parentTotal
      cases c.parent_name with
      | none => rfl
      | some p =>
        by_cases hpe : p = "" <;> simp [hpe, ih p]

/-- parent_total depends on the class map only through dict lookup. -/
theorem parentTotal_congr (m₁ m₂ : List (String × ClassVTable))
    (hl : ∀ k, mapLookup m₁ k = mapLookup m₂ k) (fuel : Nat)
    (c : ClassVTable) : parentTotal m₁ fuel c = parentTotal m₂ fuel c := by
  unfold parentTotal
  cases c.parent_name with
  | none => rfl
  | some p =>
    by_cases hpe : p = "" <;> simp [hpe, resolveTotal_congr m₁ m₂ hl fuel p]

/-- C3: resolution is order-independent: permuting the class map (with its
distinct dict keys) changes no class's resolved total, base_index, or
emitted total_slots. -/
theorem resolution_order_independent (m₁ m₂ : List (String × ClassVTable))
    (hnd : (m₁.map Prod.fst).Nodup) (hperm : m₁.Perm m₂) :
    ∀ fuel name,
      resolveTotal m₁ fuel name = resolveTotal m₂ fuel name ∧
      base_index_of m₁ fuel name = base_index_of m₂ fuel name ∧
      total_slots_of m₁ fuel name = total_slots_of m₂ fuel name := by
  intro fuel name
  have hl : ∀ k, mapLookup m₁ k = mapLookup m₂ k :=
    mapLookup_eq_of_perm m₁ m₂ hperm hnd
  refine ⟨resolveTotal_congr m₁ m₂ hl fuel name, ?_, ?_⟩
  · unfold base_index_of
    rw [hl name]
    cases mapLookup m₂ name with
    | none => rfl
    | some c => exact parentTotal_congr m₁ m₂ hl fuel c
  · unfold total_slots_of
    rw [hl name]
    cases mapLookup m₂ name with
    | none => rfl
    | some c => simp [formatClass, parentTotal_congr m₁ m₂ hl fuel c]

/-- Witness for C3: swapping the first two entries of the three-class
registry changes nothing for Leaf. -/
theorem resolution_order_independent_witness :
    resolveTotal scenarioMap 4 "Leaf"
      = resolveTotal (("Mid", midVT) :: ("Root", rootVT) :: [("Leaf", leafVT)]) 4 "Leaf" ∧
    base_index_of scenarioMap 4 "Leaf"
      = base_index_of (("Mid", midVT) :: ("Root", rootVT) :: [("Leaf", leafVT)]) 4 "Leaf" ∧
    total_slots_of scenarioMap 4 "Leaf"
      = total_slots_of (("Mid", midVT) :: ("Root", rootVT) :: [("Leaf", leafVT)]) 4 "Leaf" :=
  resolution_order_independent scenarioMap
    (("Mid", midVT) :: ("Root", rootVT) :: [("Leaf", leafVT)])
    (by decide) (List.Perm.swap ("Mid", midVT) ("Root", rootVT) [("Leaf", leafVT)])
    4 "Leaf"

/-- Number of true flags on a preprocessor guard stack. -/
def trueCount : List Bool → Nat
  | [] => 0
  | b :: rest => (if b then 1 else 0) + trueCount rest

/-- Counting trues after pushing onto the top (end) of the stack. -/
theorem trueCount_push (l : List Bool) (b : Bool) :
    trueCount (l ++ [b]) = trueCount l + (if b then 1 else 0) := by
  induction l with
  | nil => simp [trueCount]
  | cons x rest ih => simp [trueCount, ih]; omega

/-- Splitting the true count at the top (last) element of the stack. -/
theorem trueCount_top (l : List Bool) (b : Bool) (h : l.getLast? = some b) :
    trueCount l = trueCount l.dropLast + (if b then 1 else 0) := by
  induction l with
  | nil => simp at h
  | cons x rest ih =>
    cases rest with
    | nil =>
      simp [List.getLast?] at h
      simp [trueCount, h]
    | cons y ys =>
      rw [List.getLast?_cons_cons] at h
      have h2 := ih h
      calc trueCount (x :: y :: ys)
          = (if x then 1 else 0) + trueCount (y :: ys) := rfl
        _ = (if x then 1 else 0)
              + (trueCount ((y :: ys).dropLast) + (if b then 1 else 0)) := by
            rw [h2]
        _ = trueCount ((x :: y :: ys).dropLast) + (if b then 1 else 0) := by
            have h3 : (x :: y :: ys).dropLast = x :: (y :: ys).dropLast := rfl
            rw [h3]
            show _ = ((if x then 1 else 0) + trueCount ((y :: ys).dropLast))
                + (if b then 1 else 0)
            omega

/-- Directive handling never touches the results list or the pending
declaration buffer. -/
theorem stepDirective_results_accum (s : ScanState) (line : List Char) :
    (stepDirective s line).results = s.results ∧
    (stepDirective s line).accum = s.accum := by
  unfold stepDirective
  split_ifs <;> exact ⟨rfl, rfl⟩

/-- Directive handling preserves the depth-equals-true-flags invariant,
including for an unmatched #endif (ignored on an empty stack) and
an #else over a false top flag (no change). -/
theorem stepDirective_inv (s : ScanState) (line : List Char)
    (h : s.editor_depth = trueCount s.pp_stack) :
    (stepDirective s line).editor_depth
      = trueCount (stepDirective s line).pp_stack := by
  unfold stepDirective
  split
  · -- #if: push, increment when editor guard
    show (if is_editor_ifdef line then s.editor_depth + 1 else s.editor_depth)
      = trueCount (s.pp_stack ++ [is_editor_ifdef line])
    rw [trueCount_push]
    cases is_editor_ifdef line <;> simp [h]
  · split
    · exact h
    · split
      · -- #else
        split
        · next hcond =>
          obtain ⟨hlast, hpos⟩ := hcond
          show s.editor_depth - 1 = trueCount (setLastFlag s.pp_stack false)
          have htop := trueCount_top s.pp_stack true hlast
          simp only [setLastFlag]
          rw [trueCount_push]
          simp at htop
          simp only [Bool.false_eq_true, if_false]
          omega
        · exact h
      · split
        · -- #endif
          split
          · exact h
          · next hne =>
            show (if s.pp_stack.getLast? = some true ∧ 0 < s.editor_depth
                  then s.editor_depth - 1 else s.editor_depth)
              = trueCount s.pp_stack.dropLast
            split
            · next hcond =>
              obtain ⟨hlast, hpos⟩ := hcond
              have htop := trueCount_top s.pp_stack true hlast
              simp at htop
              omega
            · next hcond =>
              rcases hlast : s.pp_stack.getLast? with _ | b
              · cases hstack : s.pp_stack with
                | nil => exact absurd hstack hne
                | cons a l =>
                  rw [hstack] at hlast
                  simp [List.getLast?] at hlast
              · cases b with
                | false =>
                  have htop := trueCount_top s.pp_stack false hlast
                  simp at htop
                  omega
                | true =>
                  have htop := trueCount_top s.pp_stack true hlast
                  simp at htop
                  have hnp : ¬ 0 < s.editor_depth := fun hp => hcond ⟨hlast, hp⟩
                  omega
        · exact h

/-- Class-scope tracking and accumulation never touch the guard stack or
the editor depth. -/
theorem stepBody_pp (className : List Char) (s : ScanState) (lineNo : Nat)
    (raw line : List Char) :
    (stepBody className s lineNo raw line).editor_depth = s.editor_depth ∧
    (stepBody className s lineNo raw line).pp_stack = s.pp_stack := by
  unfold stepBody
  dsimp only
  split_ifs <;> exact ⟨rfl, rfl⟩

/-- C6: while the active editor depth is positive, processing a line
leaves the scanner's output list and its pending declaration buffer
unchanged, so a virtual declaration all of whose lines lie inside an
editor-only guard produces no entry. -/
theorem editor_guard_excludes (className : List Char) (s : ScanState)
    (lineNo : Nat) (raw : List Char) (h : 0 < s.editor_depth) :
    (stepLine className s lineNo raw).results = s.results ∧
    (stepLine className s lineNo raw).accum = s.accum := by
  unfold stepLine
  split
  · exact stepDirective_results_accum s (pyStrip raw)
  · exact ⟨rfl, rfl⟩

/-- Witness for C6 at a guarded virtual declaration line in depth-1
state. -/
theorem editor_guard_excludes_witness :
    (stepLine "Foo".data
        { initScan with editor_depth := 1, pp_stack := [true], in_class := true,
                        brace_depth := 1, class_brace_depth := 1 }
        5 "    virtual void EditorOnlyFn();".data).results
      = ({ initScan with editor_depth := 1, pp_stack := [true], in_class := true,
                         brace_depth := 1, class_brace_depth := 1 } : ScanState).results ∧
    (stepLine "Foo".data
        { initScan with editor_depth := 1, pp_stack := [true], in_class := true,
                        brace_depth := 1, class_brace_depth := 1 }
        5 "    virtual void EditorOnlyFn();".data).accum
      = ({ initScan with editor_depth := 1, pp_stack := [true], in_class := true,
                         brace_depth := 1, class_brace_depth := 1 } : ScanState).accum :=
  editor_guard_excludes "Foo".data
    { initScan with editor_depth := 1, pp_stack := [true], in_class := true,
                    brace_depth := 1, class_brace_depth := 1 }
    5 "    virtual void EditorOnlyFn();".data (by decide)

/-- C10: after processing any sequence of lines from a state satisfying
it, the counter editor_depth equals the number of true flags on the guard
stack (hence is never negative); unmatched #endif lines are ignored on an
empty stack and #else over a false top flag changes nothing. -/
theorem guard_depth_invariant (className : List Char)
    (lines : List (List Char)) (s : ScanState) (n : Nat)
    (h : s.editor_depth = trueCount s.pp_stack) :
    (scanLines className s n lines).editor_depth
      = trueCount (scanLines className s n lines).pp_stack := by
  induction lines generalizing s n with
  | nil => exact h
  | cons l rest ih =>
    refine ih (stepLine className s n l) (n + 1) ?_
    unfold stepLine
    split
    · exact stepDirective_inv s (pyStrip l) h
    · split
      · exact h
      · have hb := stepBody_pp className s n l (pyStrip l)
        rw [hb.1, hb.2]
        exact h

/-- Witness for C10 on a header with a stray #endif, a stray #else, and a
nested editor guard. -/
theorem guard_depth_invariant_witness :
    (scanLines "Foo".data initScan 1
        ["#endif".data, "#else".data, "#if WITH_EDITOR".data,
         "#if 1".data, "virtual void e();".data, "#endif".data]).editor_depth
      = trueCount (scanLines "Foo".data initScan 1
        ["#endif".data, "#else".data, "#if WITH_EDITOR".data,
         "#if 1".data, "virtual void e();".data, "#endif".data]).pp_stack :=
  guard_depth_invariant "Foo".data
    ["#endif".data, "#else".data, "#if WITH_EDITOR".data,
     "#if 1".data, "virtual void e();".data, "#endif".data]
    initScan 1 (by decide)

/-- Success of a backtracking quantifier came from one candidate length. -/
theorem firstSome_eq_some {α : Type} (l : List Nat) (k : Nat → Option α)
    (r : α) (h : firstSome l k = some r) : ∃ n, n ∈ l ∧ k n = some r := by
  induction l with
  | nil => simp [firstSome] at h
  | cons n rest ih =>
    simp only [firstSome] at h
    cases hk : k n with
    | some r' =>
      rw [hk] at h
      exact ⟨n, List.mem_cons_self n rest, by rw [hk, Option.some_inj.mp h]⟩
    | none =>
      rw [hk] at h
      obtain ⟨n', hn', hk'⟩ := ih h
      exact ⟨n', List.mem_cons_of_mem n hn', hk'⟩

/-- Greedy one-or-more candidate lengths lie between 1 and the run. -/
theorem mem_descCounts (n m : Nat) (h : n ∈ descCounts m) : 1 ≤ n ∧ n ≤ m := by
  simp only [descCounts, List.mem_reverse, List.mem_map, List.mem_range] at h
  obtain ⟨i, hi, he⟩ := h
  omega

/-- A positive character run means the first character satisfies f. -/
theorem charRun_pos (f : Char → Bool) (s : List Char)
    (h : 0 < charRun f s) : ∃ c t, s = c :: t ∧ f c = true := by
  cases s with
  | nil => simp [charRun] at h
  | cons c t =>
    by_cases hf : f c = true
    · exact ⟨c, t, rfl, hf⟩
    · simp [charRun, hf] at h

/-- A captured (\w+) group is nonempty and starts with a word character. -/
theorem wordCapture_head (s : List Char) (k : List Char → Bool)
    (nm : List Char) (h : wordCapture s k = some nm) :
    ∃ c t, nm = c :: t ∧ isWordChar c = true := by
  obtain ⟨n, hn, hkn⟩ := firstSome_eq_some _ _ _ h
  obtain ⟨h1, h2⟩ := mem_descCounts n _ hn
  have hkk : s.take n = nm := by
    by_cases hc : k (s.drop n) = true
    · rw [if_pos hc] at hkn
      exact Option.some_inj.mp hkn
    · rw [if_neg hc] at hkn
      exact absurd hkn (by simp)
  obtain ⟨c, t, hs, hw⟩ := charRun_pos isWordChar s (by omega)
  obtain ⟨m, rfl⟩ : ∃ m, n = m + 1 := ⟨n - 1, by omega⟩
  subst hs
  refine ⟨c, t.take m, ?_, hw⟩
  rw [← hkk]
  rfl

/-- The function-name regex tail captures a word-initial name. -/
theorem reFuncTail_head (s nm : List Char) (h : reFuncTail s = some nm) :
    ∃ c t, nm = c :: t ∧ isWordChar c = true := by
  unfold reFuncTail plusGreedy plusLazy at h
  obtain ⟨n1, _, h1⟩ := firstSome_eq_some _ _ _ h
  obtain ⟨n2, _, h2⟩ := firstSome_eq_some _ _ _ h1
  obtain ⟨n3, _, h3⟩ := firstSome_eq_some _ _ _ h2
  exact wordCapture_head _ _ _ h3

/-- A name found by _RE_FUNC_NAME starts with a word character. -/
theorem reFuncSearch_head (s nm : List Char) (h : reFuncSearch s = some nm) :
    ∃ c t, nm = c :: t ∧ isWordChar c = true := by
  induction s with
  | nil => simp [reFuncSearch] at h
  | cons c rest ih =>
    simp only [reFuncSearch] at h
    split at h
    · split at h
      · rename_i x1 tl hdl x2 r htl
        rw [← Option.some_inj.mp h]
        exact reFuncTail_head tl r htl
      · exact ih h
    · exact ih h

/-- The fallback token scan always yields a name, with its destructor
flag exactly the name-begins-with-tilde test. -/
theorem fallbackGo_ok (allparts : List (List Char)) :
    ∀ (i : Nat) (rest : List (List Char)),
      ∃ nm b, fallbackGo allparts i rest = some (nm, b) ∧
        b = pyStartsWith ['~'] nm := by
  intro i rest
  induction rest generalizing i with
  | nil => exact ⟨"unknown".data, false, rfl, by decide⟩
  | cons p rest ih =>
    simp only [fallbackGo]
    by_cases hc : p = "virtual".data ∧ i + 1 < allparts.length
    · rw [if_pos hc]
      have hne : allparts ≠ [] := by
        intro he
        rw [he] at hc
        simp at hc
      split
      · rename_i hgl
        exfalso
        cases hap : allparts with
        | nil => exact hne hap
        | cons a l =>
          rw [hap] at hgl
          simp [List.getLast?] at hgl
      · split
        · exact ih (i + 1)
        · exact ⟨_, _, rfl, rfl⟩
    · rw [if_neg hc]
      exact ih (i + 1)

/-- _extract_func_name never raises: every Python operation it performs is
defined, so the embedding always returns a value. -/
theorem extract_func_name_total (decl : List Char) :
    ∃ r, extract_func_name decl = some r := by
  unfold extract_func_name
  cases hd : reDtorSearch decl with
  | some nm => exact ⟨_, rfl⟩
  | none =>
    cases hf : reFuncSearch decl with
    | some nm => exact ⟨_, rfl⟩
    | none =>
      obtain ⟨nm, b, he, _⟩ :=
        fallbackGo_ok (pySplitWs (takeUntilParen decl)) 0
          (pySplitWs (takeUntilParen decl))
      exact ⟨(nm, b), he⟩

/-- C8 (amended): for a completed virtual non-override declaration not
matching the destructor pattern, name extraction never raises and
produces a slot whose destructor flag is true exactly when the extracted
name begins with a tilde (the token fallback can return true for a
paren-free declaration such as "virtual ~Foo;"); the regex path yields
the identifier before the first parenthesis with a false flag, and the
sentinel name is "unknown" with a false flag. -/
theorem nondtor_extraction (decl : List Char)
    (_hv : containsWord "virtual".data decl = true)
    (_hov : containsWord "override".data decl = false)
    (hd : reDtorSearch decl = none) :
    ∃ nm b, extract_func_name decl = some (nm, b) ∧
      b = pyStartsWith ['~'] nm := by
  unfold extract_func_name
  rw [hd]
  cases hf : reFuncSearch decl with
  | some nm =>
    refine ⟨nm, false, rfl, ?_⟩
    obtain ⟨c, t, hnm, hc⟩ := reFuncSearch_head decl nm hf
    subst hnm
    have hne : ('~' : Char) ≠ c := by
      intro he
      rw [← he] at hc
      exact absurd hc (by decide)
    simp [pyStartsWith, dropLit, hne]
  | none => exact fallbackGo_ok (pySplitWs (takeUntilParen decl)) 0 _

/-- Witness for the amended C8 on a regular member declaration. -/
theorem nondtor_extraction_witness :
    ∃ nm b, extract_func_name "virtual void funcC();".data = some (nm, b) ∧
      b = pyStartsWith ['~'] nm :=
  nondtor_extraction "virtual void funcC();".data (by decide) (by decide)
    (by decide)

/-- Counterexample to C8 as stated: the paren-free completed declaration
"virtual ~Foo;" contains virtual, lacks override, does not match the
destructor pattern, yet extraction produces is_destructor = true (with
name "~Foo;"), not false. -/
theorem nondtor_extraction_cex :
    containsWord "virtual".data "virtual ~Foo;".data = true ∧
    containsWord "override".data "virtual ~Foo;".data = false ∧
    reDtorSearch "virtual ~Foo;".data = none ∧
    extract_func_name "virtual ~Foo;".data = some ("~Foo;".data, true) := by
  decide

/-- Dict assignment stores the value under its key. -/
theorem dictInsert_lookup_self {α : Type} (m : List (String × α)) (k : String)
    (v : α) : mapLookup (dictInsert m k v) k = some v := by
  induction m with
  | nil => simp [dictInsert, mapLookup]
  | cons e rest ih =>
    by_cases he : e.1 = k
    · simp [dictInsert, he, mapLookup]
    · simp [dictInsert, he, mapLookup, ih]

/-- Dict assignment leaves other keys unchanged. -/
theorem dictInsert_lookup_other {α : Type} (m : List (String × α))
    (k k' : String) (v : α) (h : k ≠ k') :
    mapLookup (dictInsert m k v) k' = mapLookup m k' := by
  induction m with
  | nil => simp [dictInsert, mapLookup, h]
  | cons e rest ih =>
    by_cases he : e.1 = k
    · simp [dictInsert, he, mapLookup, h]
    · by_cases he' : e.1 = k'
      · simp [dictInsert, he, mapLookup, he', Ne.symm h]
      · simp [dictInsert, he, mapLookup, he', ih]

/-- The registry loop does not touch keys outside the remaining
configuration. -/
theorem buildFold_lookup_untouched (fs : String → Option (List String))
    (cfg : List ConfigEntry) :
    ∀ (acc : List (String × ClassVTable) × List String) (d : String),
      d ∉ cfg.map (fun t => t.1) →
      mapLookup (cfg.foldl (buildStep fs) acc).1 d = mapLookup acc.1 d := by
  induction cfg with
  | nil => intro acc d _; rfl
  | cons t rest ih =>
    intro acc d hd
    simp only [List.map_cons, List.mem_cons] at hd
    push_neg at hd
    rw [List.foldl_cons, ih _ d hd.2]
    exact dictInsert_lookup_other _ _ _ _ (fun he => hd.1 he.symm)

/-- The registry entry for a configured class (with the distinct class
names of the shipped configuration) carries the configured parent and the
scan of its own configured header. -/
theorem buildFold_lookup_mem (fs : String → Option (List String))
    (cfg : List ConfigEntry) :
    ∀ (acc : List (String × ClassVTable) × List String)
      (d : String) (q : Option String) (g : String),
      (d, q, g) ∈ cfg → (cfg.map (fun t => t.1)).Nodup →
      mapLookup (cfg.foldl (buildStep fs) acc).1 d
        = some ⟨d, q, (parse_header fs g d).1⟩ := by
  induction cfg with
  | nil => intro _ _ _ _ h _; simp at h
  | cons t rest ih =>
    intro acc d q g hmem hnd
    rw [List.map_cons, List.nodup_cons] at hnd
    rcases List.mem_cons.mp hmem with heq | hrest
    · subst heq
      rw [List.foldl_cons, buildFold_lookup_untouched fs rest _ d hnd.1]
      exact dictInsert_lookup_self _ _ _
    · rw [List.foldl_cons]
      exact ih _ d q g hrest hnd.2

/-- Diagnostics accumulate: the loop only appends to them. -/
theorem buildFold_diag_mono (fs : String → Option (List String))
    (cfg : List ConfigEntry) :
    ∀ (acc : List (String × ClassVTable) × List String),
      ∃ tail, (cfg.foldl (buildStep fs) acc).2 = acc.2 ++ tail := by
  induction cfg with
  | nil => intro acc; exact ⟨[], by simp⟩
  | cons t rest ih =>
    intro acc
    obtain ⟨tail, htail⟩ := ih (buildStep fs acc t)
    rw [List.foldl_cons, htail]
    exact ⟨(parse_header fs t.2.2 t.1).2 ++ tail, by simp [buildStep]⟩

/-- A configured class whose header is missing leaves its WARNING
diagnostic in the collected diagnostics. -/
theorem buildFold_diag_mem (fs : String → Option (List String))
    (cfg : List ConfigEntry) :
    ∀ (acc : List (String × ClassVTable) × List String)
      (c : String) (p : Option String) (hpath : String),
      (c, p, hpath) ∈ cfg → fs hpath = none →
      (String.append "  WARNING: File not found: " hpath)
        ∈ (cfg.foldl (buildStep fs) acc).2 := by
  induction cfg with
  | nil => intro _ _ _ _ h _; simp at h
  | cons t rest ih =>
    intro acc c p hpath hmem hmiss
    rcases List.mem_cons.mp hmem with heq | hrest
    · subst heq
      obtain ⟨tail, htail⟩ :=
        buildFold_diag_mono fs rest (buildStep fs acc (c, p, hpath))
      rw [List.foldl_cons, htail]
      have hp : (parse_header fs hpath c).2
          = [String.append "  WARNING: File not found: " hpath] := by
        simp [parse_header, hmiss]
      simp [buildStep, hp]
    · rw [List.foldl_cons]
      exact ih _ c p hpath hrest hmiss

/-- Looking up a class in the emitted artifact is the image of looking it
up in the registry. -/
theorem mapLookup_map_snd (m : List (String × ClassVTable))
    (f : ClassVTable → EmittedClass) (d : String) :
    mapLookup (m.map (fun e => (e.1, f e.2))) d
      = Option.map f (mapLookup m d) := by
  induction m with
  | nil => rfl
  | cons e rest ih =>
    by_cases he : e.1 = d
    · simp [mapLookup, he]
    · simp [mapLookup, he, ih]

/-- Two-class configuration for the missing-header scenarios. -/
def cfg7 : List ConfigEntry :=
  [("Root", none, "Root.h"), ("Child", some "Root", "Child.h")]

/-- Root header with one virtual function. -/
def rootHdr : List String :=
  ["class Root \x7b", "    virtual void rootFn();", "\x7d;"]

/-- Child header with no own virtual functions. -/
def childHdr : List String :=
  ["class Child : public Root \x7b", "\x7d;"]

/-- File system where both headers exist. -/
def fsBoth : String → Option (List String) := fun p =>
  if p = "Root.h" then some rootHdr
  else if p = "Child.h" then some childHdr else none

/-- File system where Root's header is missing. -/
def fsNoRoot : String → Option (List String) := fun p =>
  if p = "Root.h" then none
  else if p = "Child.h" then some childHdr else none

/-- Counterexample to C7 as stated: with Root's header missing, Child
(another configured class) is not resolved identically to the run where
the header exists — its base index drops from 1 to 0. -/
theorem missing_header_changes_descendant :
    fsNoRoot "Root.h" = none ∧
    base_index_of (buildClassMap fsBoth cfg7).1 2 "Child" = 1 ∧
    base_index_of (buildClassMap fsNoRoot cfg7).1 2 "Child" = 0 := by
  decide

/-- C7 (amended): a missing header is non-fatal: the affected class gets
an empty own_functions list and a recorded diagnostic; every other
configured class still has its own header scanned identically; and the
final artifact contains an entry for every configured class.  (Classes
that inherit through the missing class may still resolve to different
indices than if the header were present.) -/
theorem missing_header_isolated (fs : String → Option (List String))
    (config : List ConfigEntry) (fuel : Nat) (version : String)
    (c : String) (p : Option String) (hpath : String)
    (hnd : (config.map (fun t => t.1)).Nodup)
    (hmem : (c, p, hpath) ∈ config)
    (hmiss : fs hpath = none) :
    mapLookup (buildClassMap fs config).1 c = some ⟨c, p, []⟩ ∧
    (String.append "  WARNING: File not found: " hpath)
      ∈ (buildClassMap fs config).2 ∧
    (∀ d q g, (d, q, g) ∈ config → d ≠ c →
      mapLookup (buildClassMap fs config).1 d
        = some ⟨d, q, (parse_header fs g d).1⟩) ∧
    (∀ d q g, (d, q, g) ∈ config →
      ∃ e, mapLookup (build_vtable_db fs config fuel version).1.classes d
        = some e) := by
  refine ⟨?_, ?_, ?_, ?_⟩
  · have h1 := buildFold_lookup_mem fs config ([], []) c p hpath hmem hnd
    have hp : (parse_header fs hpath c).1 = [] := by
      simp [parse_header, hmiss]
    rw [hp] at h1
    exact h1
  · exact buildFold_diag_mem fs config ([], []) c p hpath hmem hmiss
  · intro d q g hdm _
    exact buildFold_lookup_mem fs config ([], []) d q g hdm hnd
  · intro d q g hdm
    have h1 := buildFold_lookup_mem fs config ([], []) d q g hdm hnd
    refine ⟨formatClass (buildClassMap fs config).1 fuel
      ⟨d, q, (parse_header fs g d).1⟩, ?_⟩
    show mapLookup ((buildClassMap fs config).1.map
      (fun e => (e.1, formatClass (buildClassMap fs config).1 fuel e.2))) d = _
    rw [mapLookup_map_snd]
    have h1a : mapLookup (buildClassMap fs config).1 d
        = some ⟨d, q, (parse_header fs g d).1⟩ := h1
    rw [h1a]
    rfl

/-- Witness for the amended C7 on the concrete two-class configuration
with Root's header missing. -/
theorem missing_header_isolated_witness :
    mapLookup (buildClassMap fsNoRoot cfg7).1 "Root" = some ⟨"Root", none, []⟩ ∧
    (String.append "  WARNING: File not found: " "Root.h")
      ∈ (buildClassMap fsNoRoot cfg7).2 :=
  ⟨(missing_header_isolated fsNoRoot cfg7 2 "4.26" "Root" none "Root.h"
      (by decide) (by decide) (by decide)).1,
   (missing_header_isolated fsNoRoot cfg7 2 "4.26" "Root" none "Root.h"
      (by decide) (by decide) (by decide)).2.1⟩

/-- Header for the parent-capture scenario: the class declaration carries
a ": public Bar" inheritance clause. -/
def fooHdr : List String :=
  ["class Foo : public Bar \x7b", "public:", "    virtual void f();", "\x7d;"]

/-- File system holding only Foo's header. -/
def fsFoo : String → Option (List String) := fun p =>
  if p = "Foo.h" then some fooHdr else none

/-- Configuration naming Baz (not the header's Bar) as Foo's parent. -/
def cfgFoo : List ConfigEntry := [("Foo", some "Baz", "Foo.h")]

/-- Counterexample to C9 as stated: the scanned header declares
": public Bar", the scan does find Foo's virtual function, yet the
recorded parent is the configured "Baz", not the header's "Bar": the
scanner never captures a parent from the header text. -/
theorem parent_not_from_header :
    (mapLookup (buildClassMap fsFoo cfgFoo).1 "Foo").map
        ClassVTable.parent_name = some (some "Baz") ∧
    ¬ (mapLookup (buildClassMap fsFoo cfgFoo).1 "Foo").map
        ClassVTable.parent_name = some (some "Bar") ∧
    (mapLookup (buildClassMap fsFoo cfgFoo).1 "Foo").map
        ClassVTable.own_functions = some [⟨"f", false, 3⟩] := by
  decide

/-- C9 (amended): the parent stored in a registry entry always comes from
the configuration triple; parse_header returns only the function list and
never captures an inheritance clause from the header text. -/
theorem parent_from_config (fs : String → Option (List String))
    (config : List ConfigEntry) (c : String) (p : Option String)
    (hpath : String)
    (hnd : (config.map (fun t => t.1)).Nodup)
    (hmem : (c, p, hpath) ∈ config) :
    (mapLookup (buildClassMap fs config).1 c).map ClassVTable.parent_name
      = some p := by
  have h1 : mapLookup (buildClassMap fs config).1 c
      = some ⟨c, p, (parse_header fs hpath c).1⟩ :=
    buildFold_lookup_mem fs config ([], []) c p hpath hmem hnd
  rw [h1]
  rfl

/-- Witness for the amended C9 on the Foo configuration. -/
theorem parent_from_config_witness :
    (mapLookup (buildClassMap fsFoo cfgFoo).1 "Foo").map
        ClassVTable.parent_name = some (some "Baz") :=
  parent_from_config fsFoo cfgFoo "Foo" (some "Baz") "Foo.h"
    (by decide) (by decide)

end VTableGen
